import Mathlib

/-!
Verification of the Schengen visa schedule calculator (`Visas_SCalc.py`).

Dates are modelled as integers counting days (Python `datetime` values at
day resolution; `timedelta(days=n)` is `+ n`, subtraction of dates gives the
day difference, and `min` on dates is `min` on the day numbers).
-/

namespace VisaCalc

/-- Provenance tag of a stay, the `Type` column of a row: `"Manual (Fixed)"`
or `"Optimized (Auto)"`. -/
inductive StayKind where
  | Manual
  | Optimized
deriving DecidableEq

/-- One row appended to `stays`: type tag, entry date, exit date (both
inclusive, as day numbers) and the `Duration` field stored with the row. -/
structure DateRange where
  kind : StayKind
  entry : Int
  exit : Int
  duration : Int
deriving DecidableEq

/-- Line 50: `manual_duration = (manual_exit - manual_entry).days + 1`. -/
def manual_duration (manual_entry manual_exit : Int) : Int :=
  manual_exit - manual_entry + 1

/-- Lines 52-63: the validation chain setting `valid_manual` when a manual
trip is supplied; `False` if the entry precedes the visa start, the exit
precedes the entry, or the duration exceeds 90, else `True`. -/
def valid_manual (start manual_entry manual_exit : Int) : Bool :=
  if manual_entry < start then false
  else if manual_exit < manual_entry then false
  else if manual_duration manual_entry manual_exit > 90 then false
  else true

/-- Line 84: `visa_end = start + validity_delta - timedelta(days=1)`. -/
def visa_end (start days : Int) : Int :=
  start + days - 1

/-- Lines 110-135: the `while True` loop. Each iteration takes
`entry = current`, breaks once `entry > visa_end`, computes
`potential_exit = entry + 89`, `exit_date = min(potential_exit, visa_end)`,
`stay_days = (exit_date - entry).days + 1`, appends an `Optimized (Auto)`
row when `stay_days > 0`, and advances `current = exit_date + 91`. -/
def stays_loop (ve current : Int) : List DateRange :=
  if current > ve then []
  else
    let entry := current
    let potential_exit := entry + 89
    let exit_date := min potential_exit ve
    let stay_days := exit_date - entry + 1
    let rest := stays_loop ve (exit_date + 91)
    if stay_days > 0 then
      { kind := .Optimized, entry := entry, exit := exit_date,
        duration := stay_days } :: rest
    else rest
termination_by (ve + 1 - current).toNat
decreasing_by simp_wf; omega

/-- Per-window outcome: either the tab is skipped with a warning carrying
`visa_end` (the `continue` at line 97), or a list of stays is produced. -/
inductive WindowResult where
  | inapplicable (window_end : Int)
  | schedule (stays : List DateRange)
deriving DecidableEq

/-- Lines 81-135 for one `(label, days)` window: `visa_end` is computed,
`current` starts at `start`; when `has_manual_trip and valid_manual`, a
manual exit past `visa_end` skips the tab (`continue`), otherwise the
`Manual (Fixed)` row is appended and `current = manual_exit + 91`; then the
`while` loop of `stays_loop` runs. -/
def compute_stays (start : Int) (has_manual_trip : Bool)
    (manual_entry manual_exit days : Int) : WindowResult :=
  let ve := visa_end start days
  if has_manual_trip && valid_manual start manual_entry manual_exit then
    if manual_exit > ve then
      WindowResult.inapplicable ve
    else
      WindowResult.schedule
        ({ kind := .Manual, entry := manual_entry, exit := manual_exit,
           duration := manual_duration manual_entry manual_exit }
          :: stays_loop ve (manual_exit + 91))
  else
    WindowResult.schedule (stays_loop ve start)

/-- Line 143: `len(stays)`, shown as "Total Trips". -/
def tripCount (stays : List DateRange) : Nat :=
  stays.length

/-- Line 140: `df["Duration"].sum()`, shown as "Total Days in Schengen". -/
def totalDaysUsed (stays : List DateRange) : Int :=
  (stays.map DateRange.duration).sum

/-- Day number of the first day of each month of 2025 (not a leap year),
counted from 2025-01-01 as day 0. -/
def month_offset : Nat → Int
  | 1 => 0
  | 2 => 31
  | 3 => 59
  | 4 => 90
  | 5 => 120
  | 6 => 151
  | 7 => 181
  | 8 => 212
  | 9 => 243
  | 10 => 273
  | 11 => 304
  | 12 => 334
  | _ => 0

/-- Calendar date in 2025 as a day number, with 2025-01-01 as day 0. -/
def date2025 (m d : Nat) : Int :=
  month_offset m + (d : Int) - 1

/-- Pairwise adjacency check: each row's entry is exactly the previous
row's exit plus 91 days. -/
def chained : List DateRange → Bool
  | [] => true
  | [_] => true
  | a :: b :: rest => (b.entry == a.exit + 91) && chained (b :: rest)

/-- The loop produces nothing once the cursor has passed the visa end. -/
theorem stays_loop_stop (ve current : Int) (h : ve < current) :
    stays_loop ve current = [] := by
  rw [stays_loop]
  simp [show current > ve from h]

/-- One iteration of the loop while the cursor is still inside the window:
the `stay_days > 0` guard holds and one `Optimized` row is emitted. -/
theorem stays_loop_step (ve current : Int) (h : current ≤ ve) :
    stays_loop ve current =
      { kind := .Optimized, entry := current, exit := min (current + 89) ve,
        duration := min (current + 89) ve - current + 1 }
        :: stays_loop ve (min (current + 89) ve + 91) := by
  rw [stays_loop]
  have h1 : ¬ current > ve := by omega
  have h2 : min (current + 89) ve - current + 1 > 0 := by omega
  simp [h1, h2]

/-- Shape of every row emitted by the loop: it is `Optimized`, starts no
earlier than the cursor, starts inside the window, exits at
`min (entry + 89, ve)`, and records `duration = exit - entry + 1`. -/
theorem stays_loop_mem (ve : Int) (current : Int) (r : DateRange)
    (hr : r ∈ stays_loop ve current) :
    r.kind = .Optimized ∧ current ≤ r.entry ∧ r.entry ≤ ve ∧
      r.exit = min (r.entry + 89) ve ∧ r.duration = r.exit - r.entry + 1 := by
  suffices h : ∀ n : Nat, ∀ c : Int, (ve + 1 - c).toNat ≤ n →
      ∀ r ∈ stays_loop ve c, r.kind = .Optimized ∧ c ≤ r.entry ∧ r.entry ≤ ve ∧
        r.exit = min (r.entry + 89) ve ∧ r.duration = r.exit - r.entry + 1 by
    exact h (ve + 1 - current).toNat current le_rfl r hr
  intro n
  induction n with
  | zero =>
    intro c hc r hr
    have hlt : ve < c := by omega
    rw [stays_loop_stop ve c hlt] at hr
    simp at hr
  | succ n ih =>
    intro c hc r hr
    by_cases hcv : c ≤ ve
    · rw [stays_loop_step ve c hcv] at hr
      rcases List.mem_cons.mp hr with h1 | h1
      · subst h1
        refine ⟨rfl, le_refl _, hcv, rfl, rfl⟩
      · have hfuel : (ve + 1 - (min (c + 89) ve + 91)).toNat ≤ n := by omega
        obtain ⟨hk, he, hee, hx, hd⟩ := ih (min (c + 89) ve + 91) hfuel r h1
        exact ⟨hk, by omega, hee, hx, hd⟩
    · rw [stays_loop_stop ve c (by omega)] at hr
      simp at hr

/-- Rows emitted by the loop form a chained list: consecutive entries are
exactly 91 days after the previous exit. -/
theorem stays_loop_chained (ve : Int) (current : Int) :
    chained (stays_loop ve current) = true := by
  suffices h : ∀ n : Nat, ∀ c : Int, (ve + 1 - c).toNat ≤ n →
      chained (stays_loop ve c) = true by
    exact h (ve + 1 - current).toNat current le_rfl
  intro n
  induction n with
  | zero =>
    intro c hc
    have hlt : ve < c := by omega
    rw [stays_loop_stop ve c hlt]
    rfl
  | succ n ih =>
    intro c hc
    by_cases hcv : c ≤ ve
    · rw [stays_loop_step ve c hcv]
      have hfuel : (ve + 1 - (min (c + 89) ve + 91)).toNat ≤ n := by omega
      have htail := ih (min (c + 89) ve + 91) hfuel
      by_cases hnext : min (c + 89) ve + 91 ≤ ve
      · rw [stays_loop_step ve (min (c + 89) ve + 91) hnext] at htail ⊢
        simp only [chained, Bool.and_eq_true, beq_iff_eq] at htail ⊢
        exact ⟨trivial, htail⟩
      · rw [stays_loop_stop ve (min (c + 89) ve + 91) (by omega)]
        rfl
    · rw [stays_loop_stop ve c (by omega)]
      rfl

/-- Prepending a row whose exit is exactly 91 days before the loop's start
cursor keeps the list chained. -/
theorem chained_cons_loop (a : DateRange) (ve current : Int)
    (hx : a.exit + 91 = current) :
    chained (a :: stays_loop ve current) = true := by
  by_cases hc : current ≤ ve
  · rw [stays_loop_step ve current hc]
    have htail := stays_loop_chained ve current
    rw [stays_loop_step ve current hc] at htail
    simp only [chained, Bool.and_eq_true, beq_iff_eq] at htail ⊢
    exact ⟨hx.symm, htail⟩
  · rw [stays_loop_stop ve current (by omega)]
    rfl

/-- Unfolding of the `valid_manual` check into its three conditions. -/
theorem valid_manual_iff (start manual_entry manual_exit : Int) :
    valid_manual start manual_entry manual_exit = true ↔
      start ≤ manual_entry ∧ manual_entry ≤ manual_exit ∧
        manual_duration manual_entry manual_exit ≤ 90 := by
  unfold valid_manual manual_duration
  split_ifs with h1 h2 h3 <;> simp <;> unfold manual_duration at * <;> omega

/-- C1: for every schedule produced for a visa window, any two consecutive
rows satisfy `next.entry = previous.exit + 91` exactly, including the gap
between an emitted Manual first trip and the first Optimized row, and
between successive Optimized rows. -/
theorem C1_consecutive_gap_91 (start manual_entry manual_exit days : Int)
    (has_manual_trip : Bool) (stays : List DateRange)
    (h : compute_stays start has_manual_trip manual_entry manual_exit days
          = WindowResult.schedule stays) :
    chained stays = true := by
  simp only [compute_stays] at h
  split_ifs at h with hm hx
  · obtain rfl := (WindowResult.schedule.inj h).symm
    exact chained_cons_loop _ _ _ rfl
  · obtain rfl := (WindowResult.schedule.inj h).symm
    exact stays_loop_chained _ _

/-- Witness for C1 at start 0, no manual trip, a 90-day window. -/
theorem C1_consecutive_gap_91_witness :
    chained [{ kind := .Optimized, entry := 0, exit := 89, duration := 90 }]
      = true := by
  apply C1_consecutive_gap_91 0 0 0 90 false
  simp only [compute_stays, visa_end, Bool.false_and, Bool.false_eq_true,
    if_false]
  rw [stays_loop_step (0 + 90 - 1) 0 (by norm_num)]
  rw [stays_loop_stop (0 + 90 - 1) (min (0 + 89) (0 + 90 - 1) + 91)
    (by norm_num)]
  norm_num

/-- C2: every row emitted into any window's schedule, Manual or Optimized,
has `duration = exit - entry + 1` with `1 ≤ duration ≤ 90`. -/
theorem C2_duration_invariant (start manual_entry manual_exit days : Int)
    (has_manual_trip : Bool) (stays : List DateRange)
    (h : compute_stays start has_manual_trip manual_entry manual_exit days
          = WindowResult.schedule stays)
    (r : DateRange) (hr : r ∈ stays) :
    r.duration = r.exit - r.entry + 1 ∧ 1 ≤ r.duration ∧ r.duration ≤ 90 := by
  simp only [compute_stays] at h
  split_ifs at h with hm hx
  · obtain rfl := (WindowResult.schedule.inj h).symm
    rcases List.mem_cons.mp hr with h1 | h1
    · subst h1
      have hv : valid_manual start manual_entry manual_exit = true :=
        (Bool.and_eq_true _ _).mp hm |>.2
      obtain ⟨hv1, hv2, hv3⟩ := (valid_manual_iff _ _ _).mp hv
      unfold manual_duration at hv3 ⊢
      refine ⟨rfl, ?_, ?_⟩ <;> simp only [DateRange.duration] <;> omega
    · obtain ⟨hk, he, hee, hx2, hd⟩ := stays_loop_mem _ _ r h1
      refine ⟨hd, by omega, by omega⟩
  · obtain rfl := (WindowResult.schedule.inj h).symm
    obtain ⟨hk, he, hee, hx2, hd⟩ := stays_loop_mem _ _ r hr
    refine ⟨hd, by omega, by omega⟩

/-- Witness for C2 at start 0, no manual trip, a 90-day window. -/
theorem C2_duration_invariant_witness :
    ({ kind := .Optimized, entry := 0, exit := 89, duration := 90 }
        : DateRange).duration
      = ({ kind := .Optimized, entry := 0, exit := 89, duration := 90 }
          : DateRange).exit
        - ({ kind := .Optimized, entry := 0, exit := 89, duration := 90 }
            : DateRange).entry + 1 ∧
    1 ≤ ({ kind := .Optimized, entry := 0, exit := 89, duration := 90 }
          : DateRange).duration ∧
    ({ kind := .Optimized, entry := 0, exit := 89, duration := 90 }
        : DateRange).duration ≤ 90 := by
  have he : compute_stays 0 false 0 0 90 = WindowResult.schedule
      [{ kind := .Optimized, entry := 0, exit := 89, duration := 90 }] := by
    simp only [compute_stays, visa_end, Bool.false_and, Bool.false_eq_true,
      if_false]
    rw [stays_loop_step (0 + 90 - 1) 0 (by norm_num)]
    rw [stays_loop_stop (0 + 90 - 1) (min (0 + 89) (0 + 90 - 1) + 91)
      (by norm_num)]
    norm_num
  exact C2_duration_invariant 0 0 0 90 false _ he _ (List.mem_singleton.mpr rfl)

/-- C3: every row's exit is at most the window's end `start + days - 1`:
optimized stays are truncated by `min` and a manual trip exiting past the
window's end is never emitted for that window. -/
theorem C3_exit_within_window (start manual_entry manual_exit days : Int)
    (has_manual_trip : Bool) (stays : List DateRange)
    (h : compute_stays start has_manual_trip manual_entry manual_exit days
          = WindowResult.schedule stays)
    (r : DateRange) (hr : r ∈ stays) :
    r.exit ≤ visa_end start days := by
  simp only [compute_stays] at h
  split_ifs at h with hm hx
  · obtain rfl := (WindowResult.schedule.inj h).symm
    rcases List.mem_cons.mp hr with h1 | h1
    · subst h1
      simpa using hx
    · obtain ⟨hk, he, hee, hx2, hd⟩ := stays_loop_mem _ _ r h1
      omega
  · obtain rfl := (WindowResult.schedule.inj h).symm
    obtain ⟨hk, he, hee, hx2, hd⟩ := stays_loop_mem _ _ r hr
    omega

/-- Witness for C3 at start 0, no manual trip, a 90-day window. -/
theorem C3_exit_within_window_witness :
    ({ kind := .Optimized, entry := 0, exit := 89, duration := 90 }
        : DateRange).exit ≤ visa_end 0 90 := by
  have he : compute_stays 0 false 0 0 90 = WindowResult.schedule
      [{ kind := .Optimized, entry := 0, exit := 89, duration := 90 }] := by
    simp only [compute_stays, visa_end, Bool.false_and, Bool.false_eq_true,
      if_false]
    rw [stays_loop_step (0 + 90 - 1) 0 (by norm_num)]
    rw [stays_loop_stop (0 + 90 - 1) (min (0 + 89) (0 + 90 - 1) + 91)
      (by norm_num)]
    norm_num
  exact C3_exit_within_window 0 0 0 90 false _ he _ (List.mem_singleton.mpr rfl)

/-- Unfolding of the `valid_manual` check into its three rejection
conditions. -/
theorem valid_manual_false_iff (start manual_entry manual_exit : Int) :
    valid_manual start manual_entry manual_exit = false ↔
      (manual_entry < start ∨ manual_exit < manual_entry ∨
        manual_duration manual_entry manual_exit > 90) := by
  unfold valid_manual manual_duration
  split_ifs with h1 h2 h3 <;> simp <;> omega

/-- C4: when a present, otherwise-valid manual trip exits strictly after
the window's end, that window yields `inapplicable` carrying the window's
end (zero rows, a warning referencing `window.end`), and any other window
the trip fits into is still computed normally. -/
theorem C4_inapplicable_skips_window (start manual_entry manual_exit days : Int)
    (hv : valid_manual start manual_entry manual_exit = true)
    (hx : visa_end start days < manual_exit) :
    compute_stays start true manual_entry manual_exit days
        = WindowResult.inapplicable (visa_end start days) ∧
    ∀ days2 : Int, manual_exit ≤ visa_end start days2 →
      compute_stays start true manual_entry manual_exit days2
        = WindowResult.schedule
            ({ kind := .Manual, entry := manual_entry, exit := manual_exit,
               duration := manual_duration manual_entry manual_exit }
              :: stays_loop (visa_end start days2) (manual_exit + 91)) := by
  constructor
  · simp only [compute_stays, hv, Bool.and_true, if_true]
    rw [if_pos hx]
  · intro days2 h2
    simp only [compute_stays, hv, Bool.and_true, if_true]
    rw [if_neg (by omega)]

/-- Witness for C4: start 0, manual trip 10..95, the 90-day window is
inapplicable while the 365-day window computes normally. -/
theorem C4_inapplicable_skips_window_witness :
    compute_stays 0 true 10 95 90 = WindowResult.inapplicable (visa_end 0 90) ∧
    compute_stays 0 true 10 95 365
      = WindowResult.schedule
          ({ kind := .Manual, entry := 10, exit := 95,
             duration := manual_duration 10 95 }
            :: stays_loop (visa_end 0 365) (95 + 91)) := by
  have h := C4_inapplicable_skips_window 0 10 95 90 (by decide) (by decide)
  exact ⟨h.1, h.2 365 (by decide)⟩

/-- C5: a supplied manual trip is rejected exactly when its entry precedes
the global start, its exit precedes its entry, or its duration exceeds 90;
when rejected, no Manual row appears in any window's schedule and every
window computes as if no manual trip were given. -/
theorem C5_manual_rejection (start manual_entry manual_exit days : Int)
    (has_manual_trip : Bool) :
    (valid_manual start manual_entry manual_exit = false ↔
      (manual_entry < start ∨ manual_exit < manual_entry ∨
        manual_duration manual_entry manual_exit > 90)) ∧
    (valid_manual start manual_entry manual_exit = false →
      compute_stays start has_manual_trip manual_entry manual_exit days
          = compute_stays start false manual_entry manual_exit days ∧
      ∀ stays,
        compute_stays start has_manual_trip manual_entry manual_exit days
            = WindowResult.schedule stays →
        ∀ r ∈ stays, r.kind = StayKind.Optimized) := by
  refine ⟨valid_manual_false_iff start manual_entry manual_exit, ?_⟩
  intro hf
  constructor
  · simp [compute_stays, hf]
  · intro stays h r hr
    simp only [compute_stays, hf, Bool.and_false, Bool.false_eq_true,
      if_false] at h
    obtain rfl := (WindowResult.schedule.inj h).symm
    exact (stays_loop_mem _ _ r hr).1

/-- Witness for C5 at a manual trip with exit before entry. -/
theorem C5_manual_rejection_witness :
    (valid_manual 0 0 (-1) = false ↔
      ((0:Int) < 0 ∨ (-1:Int) < 0 ∨ manual_duration 0 (-1) > 90)) ∧
    compute_stays 0 true 0 (-1) 90 = compute_stays 0 false 0 (-1) 90 := by
  have h := C5_manual_rejection 0 0 (-1) 90 true
  exact ⟨h.1, (h.2 (by decide)).1⟩

/-- C6: start 2025-01-01, a 90-day window, no manual trip: the schedule is
exactly one Optimized row `[2025-01-01, 2025-03-31]` of 90 days. -/
theorem C6_scenario_a :
    compute_stays (date2025 1 1) false 0 0 90
      = WindowResult.schedule
          [{ kind := .Optimized, entry := date2025 1 1,
             exit := date2025 3 31, duration := 90 }] := by
  have h1 : date2025 1 1 = 0 := by norm_num [date2025, month_offset]
  have h3 : date2025 3 31 = 89 := by norm_num [date2025, month_offset]
  rw [h1, h3]
  simp only [compute_stays, visa_end, Bool.false_and, Bool.false_eq_true,
    if_false]
  rw [stays_loop_step (0 + 90 - 1) 0 (by norm_num)]
  rw [stays_loop_stop (0 + 90 - 1) (min (0 + 89) (0 + 90 - 1) + 91)
    (by norm_num)]
  norm_num

/-- C7: valid manual trip 2025-01-01..2025-01-15 with a 365-day window:
the first row is Manual with exactly those dates (duration 15) and the
second row's entry is 2025-04-16 = 2025-01-15 + 91 days. -/
theorem C7_scenario_c :
    compute_stays (date2025 1 1) true (date2025 1 1) (date2025 1 15) 365
      = WindowResult.schedule
          [{ kind := .Manual, entry := date2025 1 1, exit := date2025 1 15,
             duration := 15 },
           { kind := .Optimized, entry := date2025 4 16, exit := date2025 7 14,
             duration := 90 },
           { kind := .Optimized, entry := date2025 10 13,
             exit := date2025 12 31, duration := 80 }] := by
  have e1 : date2025 1 1 = 0 := by norm_num [date2025, month_offset]
  have e2 : date2025 1 15 = 14 := by norm_num [date2025, month_offset]
  have e3 : date2025 4 16 = 105 := by norm_num [date2025, month_offset]
  have e4 : date2025 7 14 = 194 := by norm_num [date2025, month_offset]
  have e5 : date2025 10 13 = 285 := by norm_num [date2025, month_offset]
  have e6 : date2025 12 31 = 364 := by norm_num [date2025, month_offset]
  rw [e1, e2, e3, e4, e5, e6]
  simp only [compute_stays, visa_end]
  rw [if_pos (by decide)]
  rw [if_neg (by norm_num)]
  norm_num [manual_duration]
  rw [stays_loop_step 364 105 (by norm_num)]
  norm_num [min_def]
  rw [stays_loop_step 364 285 (by norm_num)]
  norm_num [min_def]
  rw [stays_loop_stop 364 455 (by norm_num)]

/-- C8: the per-window loop terminates: below the window end one row is
emitted and the cursor advances by at least 91, past the end the loop
stops, and the number of emitted rows is bounded by the window length
divided by 91. -/
theorem C8_loop_terminates (ve current : Int) :
    (current ≤ ve →
      stays_loop ve current
        = { kind := .Optimized, entry := current,
            exit := min (current + 89) ve,
            duration := min (current + 89) ve - current + 1 }
          :: stays_loop ve (min (current + 89) ve + 91) ∧
      current + 91 ≤ min (current + 89) ve + 91) ∧
    (ve < current → stays_loop ve current = []) ∧
    91 * (stays_loop ve current).length ≤ (ve + 91 - current).toNat := by
  refine ⟨fun h => ⟨stays_loop_step ve current h, by omega⟩,
          fun h => stays_loop_stop ve current h, ?_⟩
  suffices h : ∀ n : Nat, ∀ c : Int, (ve + 1 - c).toNat ≤ n →
      91 * (stays_loop ve c).length ≤ (ve + 91 - c).toNat by
    exact h (ve + 1 - current).toNat current le_rfl
  intro n
  induction n with
  | zero =>
    intro c hc
    rw [stays_loop_stop ve c (by omega)]
    simp
  | succ n ih =>
    intro c hc
    by_cases hcv : c ≤ ve
    · rw [stays_loop_step ve c hcv]
      have hfuel : (ve + 1 - (min (c + 89) ve + 91)).toNat ≤ n := by omega
      have hlen := ih (min (c + 89) ve + 91) hfuel
      simp only [List.length_cons]
      omega
    · rw [stays_loop_stop ve c (by omega)]
      simp

/-- Witness for C8 with a 90-day window starting at day 0. -/
theorem C8_loop_terminates_witness :
    (stays_loop 89 0
        = { kind := .Optimized, entry := 0, exit := min ((0:Int) + 89) 89,
            duration := min ((0:Int) + 89) 89 - 0 + 1 }
          :: stays_loop 89 (min ((0:Int) + 89) 89 + 91) ∧
      (0:Int) + 91 ≤ min ((0:Int) + 89) 89 + 91) ∧
    91 * (stays_loop 89 0).length ≤ ((89:Int) + 91 - 0).toNat := by
  exact ⟨(C8_loop_terminates 89 0).1 (by norm_num),
         (C8_loop_terminates 89 0).2.2⟩

/-- C9: the per-window computation is deterministic and pure: identical
inputs give identical schedules, trip counts and total days used. -/
theorem C9_deterministic (start1 start2 manual_entry1 manual_entry2
    manual_exit1 manual_exit2 days1 days2 : Int) (hm1 hm2 : Bool)
    (h1 : start1 = start2) (h2 : hm1 = hm2)
    (h3 : manual_entry1 = manual_entry2) (h4 : manual_exit1 = manual_exit2)
    (h5 : days1 = days2) :
    compute_stays start1 hm1 manual_entry1 manual_exit1 days1
      = compute_stays start2 hm2 manual_entry2 manual_exit2 days2 ∧
    ∀ stays1 stays2,
      compute_stays start1 hm1 manual_entry1 manual_exit1 days1
          = WindowResult.schedule stays1 →
      compute_stays start2 hm2 manual_entry2 manual_exit2 days2
          = WindowResult.schedule stays2 →
      stays1 = stays2 ∧ tripCount stays1 = tripCount stays2 ∧
        totalDaysUsed stays1 = totalDaysUsed stays2 := by
  subst h1 h2 h3 h4 h5
  refine ⟨rfl, ?_⟩
  intro s1 s2 e1 e2
  rw [e1] at e2
  obtain rfl := WindowResult.schedule.inj e2
  exact ⟨rfl, rfl, rfl⟩

/-- Witness for C9 at start 0, no manual trip, a 90-day window. -/
theorem C9_deterministic_witness :
    compute_stays 0 false 0 0 90 = compute_stays 0 false 0 0 90 := by
  exact (C9_deterministic 0 0 0 0 0 0 90 90 false false
    rfl rfl rfl rfl rfl).1

/-- C10: the `stay_days > 0` guard is always satisfied when the loop body
runs (whenever the entry is at most the window end the stay has at least
one day), so with a window of at least one day and no manual row emitted
the schedule is non-empty. -/
theorem C10_guard_unreachable (start manual_entry manual_exit days : Int)
    (has_manual_trip : Bool) :
    (∀ ve current : Int, current ≤ ve →
      0 < min (current + 89) ve - current + 1) ∧
    ((has_manual_trip && valid_manual start manual_entry manual_exit) = false →
      1 ≤ days →
      ∀ stays,
        compute_stays start has_manual_trip manual_entry manual_exit days
            = WindowResult.schedule stays →
        1 ≤ tripCount stays) := by
  refine ⟨fun ve current h => by omega, ?_⟩
  intro hm hd stays h
  simp only [compute_stays, hm, Bool.false_eq_true, if_false] at h
  obtain rfl := (WindowResult.schedule.inj h).symm
  simp only [tripCount]
  rw [stays_loop_step (visa_end start days) start (by unfold visa_end; omega)]
  simp

/-- Witness for C10 at start 0, no manual trip, a 90-day window. -/
theorem C10_guard_unreachable_witness :
    (0:Int) < min ((0:Int) + 89) 89 - 0 + 1 ∧
    1 ≤ tripCount
        [{ kind := .Optimized, entry := 0, exit := 89, duration := 90 }] := by
  have he : compute_stays 0 false 0 0 90 = WindowResult.schedule
      [{ kind := .Optimized, entry := 0, exit := 89, duration := 90 }] := by
    simp only [compute_stays, visa_end, Bool.false_and, Bool.false_eq_true,
      if_false]
    rw [stays_loop_step (0 + 90 - 1) 0 (by norm_num)]
    rw [stays_loop_stop (0 + 90 - 1) (min (0 + 89) (0 + 90 - 1) + 91)
      (by norm_num)]
    norm_num
  have h := C10_guard_unreachable 0 0 0 90 false
  exact ⟨h.1 89 0 (by norm_num), h.2 (by decide) (by norm_num) _ he⟩

end VisaCalc
